import Mathlib

/-!
Verification development for the gaokao-score scraper repository.

The repository scrapes Chinese university admission-score tables (bjtu,
bupt, buaa, xidian browser scrapers) and parses BNU PDF extractions
(src/bnu/batch_pdf_processor.js).  This file gives a shallow Lean
embedding of the record-handling core of those scripts and proves the
specified properties about it.

Modelling conventions:
  * JavaScript record-field values are modelled by `JVal` (strings,
    integer-valued numbers, `null`, `undefined`); objects are
    insertion-ordered association lists (`JObj`).
  * `Number(...)` is modelled on the integer-numeral fragment actually
    produced by the scrapers (optional minus sign followed by decimal
    digits; the empty string is 0; anything else is NaN, i.e. `none`).
  * Asynchronous browser interaction is abstracted: a traversal branch is
    a function from a facet label to `Except error (List JObj)`, exactly
    the success/failure shape of the per-label loop bodies.
  * `Math.random()` in the xidian scraper is made an explicit argument.
-/

/-- JavaScript values as they occur in the scraped records: strings,
integer-valued numbers, `null` and `undefined`. -/
inductive JVal where
  | str (s : String)
  | num (n : Int)
  | null
  | undef
deriving DecidableEq

/-- A JavaScript object, as an insertion-ordered association list. -/
abbrev JObj := List (String × JVal)

/-- Property read `o[k]`; `undefined` when the key is absent. -/
def rget : JObj → String → JVal
  | [], _ => JVal.undef
  | (k1, v) :: rest, k => if k1 = k then v else rget rest k

/-- Property write `o[k] = v`: replaces the value in place (keeping the
key's position, as JS objects do) or appends a new key at the end. -/
def rset : JObj → String → JVal → JObj
  | [], k, v => [(k, v)]
  | (k1, v1) :: rest, k, v =>
      if k1 = k then (k1, v) :: rest else (k1, v1) :: rset rest k v

/-- Key-presence test (`key in obj`). -/
def rhas : JObj → String → Bool
  | [], _ => false
  | (k1, _) :: rest, k => if k1 = k then true else rhas rest k

/-- The decimal digit character for `d < 10`. -/
def digitChar (d : Nat) : Char := Char.ofNat (48 + d)

/-- `some d` when `c` is the decimal digit `d`. -/
def charDigitVal (c : Char) : Option Nat :=
  if 48 ≤ c.toNat ∧ c.toNat ≤ 57 then some (c.toNat - 48) else none

/-- Little-endian decimal digits of `n`; total thanks to the fuel
argument (`fuel ≥ n` suffices). -/
def natDigitsAux : Nat → Nat → List Char
  | _, 0 => []
  | 0, _ => []
  | fuel + 1, n + 1 => digitChar ((n + 1) % 10) :: natDigitsAux fuel ((n + 1) / 10)

/-- Decimal rendering of a natural number, as JS `String(n)`. -/
def natToString (n : Nat) : String :=
  if n = 0 then "0" else String.mk (natDigitsAux n n).reverse

/-- JS `String(n)` for an integer-valued number. -/
def intToString (n : Int) : String :=
  if n < 0 then "-" ++ natToString n.natAbs else natToString n.toNat

/-- Big-endian digit evaluation with accumulator, used by the numeral
reading in our `Number(...)` model. -/
def evalFrom (a : Nat) : List Char → Option Nat
  | [] => some a
  | c :: cs =>
      match charDigitVal c with
      | some d => evalFrom (10 * a + d) cs
      | none => none

/-- Parse a non-empty all-digit character list as a natural number. -/
def parseNatChars (l : List Char) : Option Nat :=
  match l with
  | [] => none
  | _ => evalFrom 0 l

/-- JS `Number(s)` on the integer-numeral fragment the scrapers produce:
`""` is 0, an optional minus sign followed by decimal digits is the
corresponding integer, anything else is NaN (`none`). -/
def strToNumber (s : String) : Option Int :=
  match s.data with
  | [] => some 0
  | c :: cs =>
      if c = '-' then
        match parseNatChars cs with
        | some m => some (-(m : Int))
        | none => none
      else
        match parseNatChars (c :: cs) with
        | some m => some ((m : Int))
        | none => none

/-- JS truthiness of the modelled values. -/
def truthy : JVal → Bool
  | JVal.str s => if s = "" then false else true
  | JVal.num n => if n = 0 then false else true
  | JVal.null => false
  | JVal.undef => false

/-- JS `String(v)` on the modelled values. -/
def jsToString : JVal → String
  | JVal.str s => s
  | JVal.num n => intToString n
  | JVal.null => "null"
  | JVal.undef => "undefined"

/-- JS `Number(v)`; `none` is NaN. -/
def jsNumber : JVal → Option Int
  | JVal.str s => strToNumber s
  | JVal.num n => some n
  | JVal.null => some 0
  | JVal.undef => none

/-- JS `>` on numbers; every comparison involving NaN is false. -/
def jsGreater : Option Int → Option Int → Bool
  | some a, some b => decide (b < a)
  | _, _ => false

/-- JS `a || b` on strings (the empty string is the only falsy string). -/
def jsOrS (a b : String) : String := if a = "" then b else a

/-- The six numeric-string fields normalised by `validateRecord`
(src/bnu/batch_pdf_processor.js line 427, src/unnamed/part_004 line 295). -/
def numericKeys : List String :=
  ["招生计划", "最低分", "最高分", "最低分排名", "普通类调档线", "普通类全市位次"]

/-- Body of the normalisation loop of `validateRecord`: `undefined` and
`null` become the empty string, everything else goes through `String(...)`
(src/bnu/batch_pdf_processor.js lines 428-435). -/
def fixNumericValue : JVal → JVal
  | JVal.undef => JVal.str ""
  | JVal.null => JVal.str ""
  | v => JVal.str (jsToString v)

/-- One iteration of the `for (const key of [...])` loop of
`validateRecord`. -/
def fixStep (acc : JObj) (k : String) : JObj :=
  rset acc k (fixNumericValue (rget acc k))

/-- The normalisation loop of `validateRecord` over the six keys. -/
def fixPhase (record : JObj) : JObj := numericKeys.foldl fixStep record

/-- Guard of the score-swapping branch of `validateRecord`
(src/bnu/batch_pdf_processor.js lines 419-420):
`record.最低分 && record.最高分 && Number(record.最低分) > Number(record.最高分)`. -/
def swapCond (record : JObj) : Bool :=
  truthy (rget record "最低分") && truthy (rget record "最高分") &&
    jsGreater (jsNumber (rget record "最低分")) (jsNumber (rget record "最高分"))

/-- Score-swapping branch of `validateRecord`
(src/bnu/batch_pdf_processor.js lines 419-424): when the guard holds, the
output 最低分 is the input 最高分 and vice versa. -/
def swapPhase (record : JObj) : JObj :=
  if swapCond record then
    rset (rset record "最低分" (rget record "最高分")) "最高分" (rget record "最低分")
  else record

/-- `validateRecord` from src/bnu/batch_pdf_processor.js lines 415-439
(identical in src/unnamed/part_004 lines 283-307): copy the record, swap
inverted scores, then force the six numeric fields to strings. -/
def validateRecord (record : JObj) : JObj := fixPhase (swapPhase record)

/-- Per-label loop of the production traversal (src/unnamed/part_002
lines 197-284, and likewise its year/province/admission-type/specialty
levels): each label's body is wrapped in `try { ... } catch (error) `
`{ console.error(...) }`, so a failing label contributes nothing and the
loop continues with the next label.  The body (facet selection plus
extraction against the live page) is abstracted as `branch`. -/
def prodFacetLoop (branch : String → Except String (List JObj)) : List String → List JObj
  | [] => []
  | label :: rest =>
      (match branch label with
       | Except.ok rs => rs
       | Except.error _ => []) ++ prodFacetLoop branch rest

/-- Per-label loop of the test traversal (src/unnamed/part_001
lines 183-199 and its nested province/category loops): there is no
per-label `try`/`catch`, so an exception thrown while processing one
label propagates out of the whole loop. -/
def testFacetLoop (branch : String → Except String (List JObj)) :
    List String → Except String (List JObj)
  | [] => Except.ok []
  | label :: rest => do
      let rs ← branch label
      let rest2 ← testFacetLoop branch rest
      pure (rs ++ rest2)

/-- src/unnamed/part_001 lines 540-541: the only `catch` around the test
traversal is the outer one in `scrapeAdmissionScores`, which logs the
error and falls through; the loop's collected records are abandoned
(the save of `allResults` at line 531 is skipped). -/
def testScrapeRun (branch : String → Except String (List JObj)) (labels : List String) :
    List JObj :=
  match testFacetLoop branch labels with
  | Except.ok rs => rs
  | Except.error _ => []

/-- A concrete branch oracle: the label "2024" succeeds with one record,
every other label fails (the option is no longer present). -/
def branchCx : String → Except String (List JObj) := fun label =>
  if label = "2024" then Except.ok [[("年份", JVal.str "2024")]]
  else Except.error "selection failed"

/-- Output file name of the bjtu production scraper
(src/unnamed/part_002 line 6). -/
def OUTPUT_FILE : String := "bjtu_admission_scores.json"

/-- Per-province checkpoint file name
(src/unnamed/part_002 line 326): the year is not part of the name. -/
def provinceFile (p : String) : String := OUTPUT_FILE ++ "." ++ p

/-- The ordered sequence of per-branch `saveToFile` events of one run of
`scrapeAdmissionScores` (src/unnamed/part_002 lines 60-336): the outer
loop iterates over years, the inner loop over that year's provinces, and
after a province completes its buffered records are written to the
province-named file when non-empty (lines 324-328).  `recordsOf y p` is
the provinceResults buffer collected for that year/province. -/
def branchWrites (recordsOf : String → String → List JObj)
    (provincesOf : String → List String) : List String → List (String × List JObj)
  | [] => []
  | y :: ys =>
      (provincesOf y).filterMap (fun p =>
        if recordsOf y p = [] then none else some (provinceFile p, recordsOf y p))
      ++ branchWrites recordsOf provincesOf ys

/-- The `allResults` buffer accumulated across the whole run. -/
def allRecords (recordsOf : String → String → List JObj)
    (provincesOf : String → List String) : List String → List JObj
  | [] => []
  | y :: ys =>
      ((provincesOf y).map (recordsOf y)).flatten ++ allRecords recordsOf provincesOf ys

/-- All `saveToFile` events of one run, in program order: the per-branch
checkpoints followed by the final write of `allResults` to OUTPUT_FILE
when non-empty (src/unnamed/part_002 lines 339-344). -/
def runWrites (recordsOf : String → String → List JObj)
    (provincesOf : String → List String) (years : List String) :
    List (String × List JObj) :=
  branchWrites recordsOf provincesOf years ++
    (if allRecords recordsOf provincesOf years = [] then []
     else [(OUTPUT_FILE, allRecords recordsOf provincesOf years)])

/-- Replay of `fs.writeFileSync` events: the final content of a file is
its last write, `none` if it was never written. -/
def replayWrites : List (String × List JObj) → String → Option (List JObj)
  | [], _ => none
  | w :: ws, f =>
      match replayWrites ws f with
      | some c => some c
      | none => if w.1 = f then some w.2 else none

/-- A concrete two-year scrape: the same province yields different
records in 2024 and 2023. -/
def recordsOfCx (y : String) (_p : String) : List JObj :=
  if y = "2024" then [[("年份", JVal.str "2024")]] else [[("年份", JVal.str "2023")]]

/-- Specialty-group rewriting of src/unnamed/part_001 lines 441-443 (and
507-509): three successive in-place rewrites of the chosen value. -/
def deriveSpecialtyGroup (s : String) : String :=
  let s1 := if s = "综合改革" then "物理组" else s
  let s2 := if s1 = "理科" then "理工" else s1
  if s2 = "文科" then "文史" else s2

/-- src/unnamed/part_001 line 440:
`let finalSpecialtyGroup = pageSpecialtyGroup || category || ''`, followed
by the three rewrites of lines 441-443 — the rewrites are applied to the
combined value regardless of whether it came from the page read or from
the category fallback. -/
def finalSpecialtyGroup (pageSpecialtyGroup category : String) : String :=
  deriveSpecialtyGroup (jsOrS pageSpecialtyGroup (jsOrS category ""))

/-- The record literal built for each row of the bjtu tables
(src/unnamed/part_001 lines 643-655 for the by-major table, lines
577-589 for the general-admission table). -/
def bjtuBase (school campus year admissionType province category specialtyGroup pageSG :
    String) : JObj :=
  [("学校", JVal.str school),
   ("校区", JVal.str (jsOrS campus "校本部")),
   ("年份", JVal.str year),
   ("计划类型", JVal.str admissionType),
   ("省市", JVal.str province),
   ("科类", JVal.str category),
   ("专业", JVal.str ""),
   ("最低分", JVal.str ""),
   ("最高分", JVal.str ""),
   ("最低分排名", JVal.str ""),
   ("专业组/科目类/单设志愿", JVal.str (jsOrS specialtyGroup (jsOrS pageSG "")))]

/-- The `headers.forEach((header, idx) => ...)` loop of the by-major row
mapper (src/unnamed/part_001 lines 657-680): headers beyond the cell
count are skipped, recognised headers copy the cell value into the
record, and the 专业组 column falls back to the selected group then the
page-derived group when the cell is empty. -/
def bjtuApplyHeaders (cells : List String) (specialtyGroup pageSG : String) :
    Nat → List String → JObj → JObj
  | _, [], acc => acc
  | idx, header :: rest, acc =>
      let acc2 :=
        if cells.length ≤ idx then acc
        else
          let value := cells.getD idx ""
          if header = "专业" then rset acc "专业" (JVal.str value)
          else if header = "最低分" then rset acc "最低分" (JVal.str value)
          else if header = "最高分" then rset acc "最高分" (JVal.str value)
          else if header = "最低分排名" then rset acc "最低分排名" (JVal.str value)
          else if header = "专业组/科目类/单设志愿" then
            rset acc "专业组/科目类/单设志愿"
              (JVal.str (jsOrS value (jsOrS specialtyGroup (jsOrS pageSG ""))))
          else acc
      bjtuApplyHeaders cells specialtyGroup pageSG (idx + 1) rest acc2

/-- By-major row mapper (src/unnamed/part_001 lines 639-683): rows with
fewer than 4 cells yield no record (`return null`). -/
def bjtuMajorRow (school campus year admissionType province category specialtyGroup pageSG :
    String) (headers cells : List String) : Option JObj :=
  if cells.length < 4 then none
  else some (bjtuApplyHeaders cells specialtyGroup pageSG 0 headers
    (bjtuBase school campus year admissionType province category specialtyGroup pageSG))

/-- `rows.map(...).filter(item => item !== null)` over the by-major table
(src/unnamed/part_001 lines 639-683). -/
def bjtuMajorTable (school campus year admissionType province category specialtyGroup pageSG :
    String) (headers : List String) (rows : List (List String)) : List JObj :=
  rows.filterMap
    (bjtuMajorRow school campus year admissionType province category specialtyGroup pageSG
      headers)

/-- The `cells.forEach((cell, idx) => ...)` loop of the general-admission
row mapper (src/unnamed/part_001 lines 591-609): cells beyond the header
count are ignored; only the 最低分 / 平均分 / 最高分 headers are copied. -/
def bjtuGeneralApply (headers : List String) : Nat → List String → JObj → JObj
  | _, [], acc => acc
  | idx, cell :: rest, acc =>
      let acc2 :=
        if headers.length ≤ idx then acc
        else
          match headers.getD idx "" with
          | "最低分" => rset acc "最低分" (JVal.str cell)
          | "平均分" => rset acc "平均分" (JVal.str cell)
          | "最高分" => rset acc "最高分" (JVal.str cell)
          | _ => acc
      bjtuGeneralApply headers (idx + 1) rest acc2

/-- General-admission row mapper (src/unnamed/part_001 lines 573-612):
rows with fewer than 3 cells yield no record. -/
def bjtuGeneralRow (school campus year admissionType province category specialtyGroup pageSG :
    String) (headers cells : List String) : Option JObj :=
  if cells.length < 3 then none
  else some (bjtuGeneralApply headers 0 cells
    (bjtuBase school campus year admissionType province category specialtyGroup pageSG))

/-- `rows.map(...).filter(item => item !== null)` over the
general-admission table (src/unnamed/part_001 lines 573-612). -/
def bjtuGeneralTable (school campus year admissionType province category specialtyGroup pageSG :
    String) (headers : List String) (rows : List (List String)) : List JObj :=
  rows.filterMap
    (bjtuGeneralRow school campus year admissionType province category specialtyGroup pageSG
      headers)

/-- The by-major header list of spec Scenario A. -/
def byMajorHeaders : List String :=
  ["专业", "最低分", "最高分", "最低分排名", "专业组/科目类/单设志愿"]

/-- Row mapper of the buaa scraper (src/buaa/browser_scraper.js lines
238-265): rows with fewer than 3 cells yield no record; otherwise the
columns are positional ([年份, 省市, 科类, 类型, 最低分, 平均分, 控制线])
with the selection parameters as fallbacks for the first four. -/
def buaaExtractRow (school province year category admissionType : String)
    (cells : List String) : Option JObj :=
  if cells.length < 3 then none
  else
    some [("学校", JVal.str school),
      ("年份", JVal.str (jsOrS (cells.getD 0 "") year)),
      ("省市", JVal.str (jsOrS (cells.getD 1 "") province)),
      ("科类", JVal.str (jsOrS (cells.getD 2 "") category)),
      ("类型", JVal.str (jsOrS (cells.getD 3 "") admissionType.trim)),
      ("最低分", JVal.str (cells.getD 4 "")),
      ("平均分", JVal.str (cells.getD 5 "")),
      ("控制线", JVal.str (cells.getD 6 ""))]

/-- `rows.map(...).filter(item => item !== null)` of the buaa scraper
(src/buaa/browser_scraper.js lines 238-265). -/
def buaaExtractTable (school province year category admissionType : String)
    (rows : List (List String)) : List JObj :=
  rows.filterMap (buaaExtractRow school province year category admissionType)

/-- The base record of the xidian row mapper
(src/xidian/production_scraper.js lines 385-393). -/
def xidianBase (school province : String) : JObj :=
  [("学校", JVal.str school), ("省市", JVal.str province), ("专业", JVal.str ""),
   ("最低分", JVal.str ""), ("最高分", JVal.str ""), ("科类", JVal.str ""),
   ("年份", JVal.str "")]

/-- The score-shaped test `/^\d+(\.\d+)?$/` of
src/xidian/production_scraper.js line 425. -/
def isScoreText (s : String) : Bool :=
  match s.data.span (fun c => (charDigitVal c).isSome) with
  | (intPart, rest) =>
      if intPart.isEmpty then false
      else
        match rest with
        | [] => true
        | c :: frac =>
            c == '.' && !frac.isEmpty && frac.all (fun d => (charDigitVal d).isSome)

/-- The year-shaped test `/^2\d{3}$/` of
src/xidian/production_scraper.js line 437. -/
def isYearText (s : String) : Bool :=
  match s.data with
  | c :: rest => c == '2' && rest.length == 3 && rest.all (fun d => (charDigitVal d).isSome)
  | [] => false

/-- The placeholder major name of src/xidian/production_scraper.js
line 452; `Math.floor(Math.random() * 1000)` is the explicit `rand`
argument of the model. -/
def unnamedMajor (firstCell : String) (rand : Nat) : String :=
  "未命名专业-" ++ jsOrS firstCell ("数据" ++ natToString rand)

/-- One step of the `cellTexts.forEach(...)` scan of
src/xidian/production_scraper.js lines 423-440: the first score-shaped
cell becomes 最低分, later score-shaped cells overwrite 最高分, and
year-shaped cells overwrite 年份.  State: (record, foundData,
scoreFound). -/
def xidianScanStep (st : JObj × Bool × Bool) (text : String) : JObj × Bool × Bool :=
  let r := st.1
  let fd := st.2.1
  let sf := st.2.2
  let st2 :=
    if isScoreText text then
      if sf then (rset r "最高分" (JVal.str text), true, sf)
      else (rset r "最低分" (JVal.str text), true, true)
    else (r, fd, sf)
  if isYearText text then
    (rset st2.1 "年份" (JVal.str text), st2.2.1, st2.2.2)
  else st2

/-- Row mapper of the xidian production scraper
(src/xidian/production_scraper.js lines 380-459), with the placeholder
major name precomputed as `fallbackName` (it is only used when the
resolved 专业 is empty; see `xidianExtractRow`). -/
def xidianExtractRowCore (school province year fallbackName : String)
    (cellTexts : List String) : Option JObj :=
  if cellTexts.length < 3 then none
  else
    let result := xidianBase school province
    let st :=
      if 7 ≤ cellTexts.length then
        let r1 := rset result "年份" (JVal.str (jsOrS (cellTexts.getD 0 "") year))
        let r2 := rset r1 "类别" (JVal.str (cellTexts.getD 2 ""))
        let r3 := rset r2 "科类" (JVal.str (cellTexts.getD 3 ""))
        let r4 := rset r3 "专业" (JVal.str (cellTexts.getD 4 ""))
        let r5 := rset r4 "最高分" (JVal.str (cellTexts.getD 5 ""))
        let r6 := rset r5 "最低分" (JVal.str (cellTexts.getD 6 ""))
        (r6, true)
      else
        let start :=
          if cellTexts.getD 0 "" = "" then (result, false)
          else (rset result "专业" (JVal.str (cellTexts.getD 0 "")), true)
        let scan := cellTexts.foldl xidianScanStep (start.1, start.2, false)
        (scan.1, scan.2.1)
    let result2 :=
      if truthy (rget st.1 "年份") then st.1
      else rset st.1 "年份" (JVal.str year)
    let final :=
      if truthy (rget result2 "专业") then (result2, st.2)
      else (rset result2 "专业" (JVal.str fallbackName), true)
    if final.2 then some final.1 else none

/-- src/xidian/production_scraper.js lines 450-454: the placeholder name
draws `Math.random()`, exposed here as the explicit `rand` input of the
row mapper. -/
def xidianExtractRow (school province year : String) (rand : Nat)
    (cellTexts : List String) : Option JObj :=
  xidianExtractRowCore school province year
    (unnamedMajor (cellTexts.getD 0 "") rand) cellTexts

/-- The double-quote character (code point 34). -/
def dq : Char := Char.ofNat 34

/-- The backslash character (code point 92). -/
def bs : Char := Char.ofNat 92

/-- The opening-brace character (code point 123). -/
def lb : Char := Char.ofNat 123

/-- The closing-brace character (code point 125). -/
def rb : Char := Char.ofNat 125

/-- Lookahead of the regex `/""(?!")/`: the match fails when the next
character is another double quote. -/
def nextNotQuote : List Char → Bool
  | c3 :: _ => c3 != dq
  | [] => true

/-- Pass 1 of `preprocessJsonString`
(src/bnu/batch_pdf_processor.js line 448):
`str.replace(/""(?!")/g, '","')`, scanning left to right. -/
def fixCommas : Nat → List Char → List Char
  | 0, l => l
  | _ + 1, [] => []
  | _ + 1, [c] => [c]
  | fuel + 1, c1 :: c2 :: rest =>
      if c1 == dq && c2 == dq && nextNotQuote rest then
        dq :: ',' :: dq :: fixCommas fuel rest
      else c1 :: fixCommas fuel (c2 :: rest)

/-- The literal prefix of the regex `/"专业":"(.*?)(?:","|\}")/`. -/
def zhuanyePrefix : List Char := [dq, '专', '业', dq, ':', dq]

/-- The non-greedy capture of `/"专业":"(.*?)(?:","|\}")/` starting right
after the prefix: the shortest character run (not crossing a newline,
since `.` does not match line terminators) followed by one of the two
terminators `","` or `}"`.  Returns (capture, terminator, remainder). -/
def findTerm : List Char → Option (List Char × List Char × List Char)
  | [] => none
  | c :: cs =>
      if List.isPrefixOf [dq, ',', dq] (c :: cs) then some ([], [dq, ',', dq], cs.drop 2)
      else if List.isPrefixOf [rb, dq] (c :: cs) then some ([], [rb, dq], cs.drop 1)
      else if c == '\n' || c == '\r' then none
      else
        match findTerm cs with
        | some (cap, t, rest) => some (c :: cap, t, rest)
        | none => none

/-- `value.replace(/"/g, '\\"')`. -/
def escapeQuotes (l : List Char) : List Char :=
  l.flatMap (fun c => if c == dq then [bs, dq] else [c])

/-- Pass 2 of `preprocessJsonString`
(src/bnu/batch_pdf_processor.js lines 452-488): walk the string; at each
match of the 专业-field pattern, escape any quotes inside the captured
major name and re-append the terminator — but only the `","` terminator
is re-appended, because the code tests `fullMatch.endsWith('","')` and
then `fullMatch.endsWith('"}')`, and a match produced by the `}"`
alternative ends with `"` so neither test fires.  Fuel makes the scan
total; the initial fuel exceeds the string length, which suffices. -/
def fixZhuanye : Nat → List Char → List Char
  | 0, l => l
  | _ + 1, [] => []
  | fuel + 1, c :: cs =>
      if List.isPrefixOf zhuanyePrefix (c :: cs) then
        match findTerm ((c :: cs).drop zhuanyePrefix.length) with
        | some (cap, t, rest) =>
            if cap.contains dq then
              zhuanyePrefix ++ escapeQuotes cap ++
                (if t = [dq, ',', dq] then t else []) ++ fixZhuanye fuel rest
            else (zhuanyePrefix ++ cap ++ t) ++ fixZhuanye fuel rest
        | none => c :: fixZhuanye fuel cs
      else c :: fixZhuanye fuel cs

/-- Literal global replacement (pass 3 of `preprocessJsonString`,
src/bnu/batch_pdf_processor.js line 491). -/
def replaceAllPat (pat rep : List Char) : Nat → List Char → List Char
  | 0, l => l
  | _ + 1, [] => []
  | fuel + 1, c :: cs =>
      if List.isPrefixOf pat (c :: cs) then
        rep ++ replaceAllPat pat rep fuel ((c :: cs).drop pat.length)
      else c :: replaceAllPat pat rep fuel cs

/-- The pattern `"最低分排名":"""` of line 491. -/
def rankTriplePat : List Char := [dq] ++ "最低分排名".data ++ [dq, ':', dq, dq, dq]

/-- Its replacement `"最低分排名":""`. -/
def rankTripleRep : List Char := [dq] ++ "最低分排名".data ++ [dq, ':', dq, dq]

/-- `preprocessJsonString` from src/bnu/batch_pdf_processor.js lines
446-494 (identical in src/unnamed/part_004 lines 314-362): the comma
repair, the 专业-quote repair, then the 最低分排名 triple-quote repair. -/
def preprocessJsonString (str : String) : String :=
  let result := fixCommas (str.data.length + 1) str.data
  let processed := fixZhuanye (result.length + 1) result
  String.mk (replaceAllPat rankTriplePat rankTripleRep (processed.length + 1) processed)

/-- JSON whitespace skipping. -/
def skipWs (l : List Char) : List Char :=
  l.dropWhile (fun c => c == ' ' || c == '\t' || c == '\n' || c == '\r')

/-- JSON string body after the opening quote, with the escapes the
extractor output uses; returns (characters, remainder past the closing
quote). -/
def parseJStr : Nat → List Char → Option (List Char × List Char)
  | 0, _ => none
  | _ + 1, [] => none
  | fuel + 1, c :: cs =>
      if c = dq then some ([], cs)
      else if c = bs then
        match cs with
        | [] => none
        | e :: rest =>
            let esc :=
              if e = dq then some dq
              else if e = bs then some bs
              else if e = '/' then some '/'
              else if e = 'n' then some '\n'
              else if e = 't' then some '\t'
              else if e = 'r' then some '\r'
              else (none : Option Char)
            match esc with
            | some ch =>
                match parseJStr fuel rest with
                | some (s, r) => some (ch :: s, r)
                | none => none
            | none => none
      else if c.toNat < 32 then none
      else
        match parseJStr fuel cs with
        | some (s, r) => some (c :: s, r)
        | none => none

/-- A JSON integer (the numeric fragment the extractor emits). -/
def parseJNum (l : List Char) : Option (JVal × List Char) :=
  match l with
  | [] => none
  | c :: cs =>
      if c = '-' then
        let ds := cs.takeWhile (fun ch => (charDigitVal ch).isSome)
        match parseNatChars ds with
        | some m => some (JVal.num (-(m : Int)), cs.drop ds.length)
        | none => none
      else
        let ds := (c :: cs).takeWhile (fun ch => (charDigitVal ch).isSome)
        match parseNatChars ds with
        | some m => some (JVal.num (m : Int), (c :: cs).drop ds.length)
        | none => none

/-- A JSON value of the flat-object fragment the extractor emits:
strings, integers and `null`. -/
def parseJValue (l : List Char) : Option (JVal × List Char) :=
  match l with
  | [] => none
  | c :: cs =>
      if c = dq then
        match parseJStr (cs.length + 1) cs with
        | some (s, r) => some (JVal.str (String.mk s), r)
        | none => none
      else if c = '-' || (charDigitVal c).isSome then parseJNum (c :: cs)
      else if List.isPrefixOf ['n', 'u', 'l', 'l'] (c :: cs) then
        some (JVal.null, (c :: cs).drop 4)
      else none

/-- The members of a non-empty flat JSON object (after the opening
brace).  A later duplicate key overwrites the earlier value while keeping
its position, as `JSON.parse` does.  The fuel bounds the member count. -/
def parseJMembers : Nat → JObj → List Char → Option (JObj × List Char)
  | 0, _, _ => none
  | fuel + 1, acc, l =>
      match skipWs l with
      | [] => none
      | c :: cs =>
          if c = dq then
            match parseJStr (cs.length + 1) cs with
            | some (k, rest) =>
                match skipWs rest with
                | ':' :: rest2 =>
                    match parseJValue (skipWs rest2) with
                    | some (v, rest3) =>
                        let acc2 := rset acc (String.mk k) v
                        match skipWs rest3 with
                        | ',' :: rest5 => parseJMembers fuel acc2 rest5
                        | c2 :: rest5 => if c2 = rb then some (acc2, rest5) else none
                        | [] => none
                    | none => none
                | _ => none
            | none => none
          else none

/-- `JSON.parse` on the flat-object fragment the extractor emits (the
candidates matched by the brace-delimited patterns of
`parseClaudeResponse` are single flat objects); `none` models the thrown
`SyntaxError`. -/
def jsonParse (s : String) : Option JObj :=
  match skipWs s.data with
  | [] => none
  | c :: cs =>
      if c = lb then
        match skipWs cs with
        | [] => none
        | c2 :: rest =>
            if c2 = rb then
              if (skipWs rest).isEmpty then some [] else none
            else
              match parseJMembers (s.data.length + 1) [] (skipWs cs) with
              | some (obj, rest2) => if (skipWs rest2).isEmpty then some obj else none
              | none => none
      else none

/-- The basic fields of the manual-extraction fallback
(src/bnu/batch_pdf_processor.js lines 538-542). -/
def basicFields : List String :=
  ["学校", "校区", "年份", "计划类型", "省市", "科类", "院（系）", "招生计划",
   "最低分", "最高分", "最低分排名", "普通类调档线", "普通类全市位次"]

/-- First match of `/"专业":"(.*?)(?:","|\}")/` over the raw candidate
(src/bnu/batch_pdf_processor.js lines 545-549). -/
def findSpecialCapture : List Char → Option (List Char)
  | [] => none
  | c :: cs =>
      if List.isPrefixOf zhuanyePrefix (c :: cs) then
        match findTerm ((c :: cs).drop zhuanyePrefix.length) with
        | some (cap, _, _) => some cap
        | none => findSpecialCapture cs
      else findSpecialCapture cs

/-- The `[^"]*` capture up to the next double quote (which must exist). -/
def takeUntilQuote : List Char → Option (List Char)
  | [] => none
  | c :: cs =>
      if c = dq then some []
      else
        match takeUntilQuote cs with
        | some cap => some (c :: cap)
        | none => none

/-- First match of `/"field":"([^"]*)"/` over the raw candidate
(src/bnu/batch_pdf_processor.js lines 552-558). -/
def findBasicCapture (fieldPat : List Char) : List Char → Option String
  | [] => none
  | c :: cs =>
      if List.isPrefixOf fieldPat (c :: cs) then
        match takeUntilQuote ((c :: cs).drop fieldPat.length) with
        | some cap => some (String.mk cap)
        | none => findBasicCapture fieldPat cs
      else findBasicCapture fieldPat cs

/-- The literal part of `/"field":"/`. -/
def fieldPattern (f : String) : List Char := [dq] ++ f.data ++ [dq, ':', dq]

/-- The manual field-extraction fallback of `parseClaudeResponse`
(src/bnu/batch_pdf_processor.js lines 536-558): the 专业 field first
(with quotes escaped), then each basic field's first match, in order. -/
def manualExtract (jsonStr : String) : JObj :=
  (match findSpecialCapture jsonStr.data with
   | some cap => [("专业", JVal.str (String.mk (escapeQuotes cap)))]
   | none => []) ++
  basicFields.filterMap (fun f =>
    (findBasicCapture (fieldPattern f) jsonStr.data).map (fun v => (f, JVal.str v)))

/-- The per-candidate body of `parseClaudeResponse`
(src/bnu/batch_pdf_processor.js lines 523-572): repair the candidate with
`preprocessJsonString`, try `JSON.parse` (the thrown `SyntaxError` is the
`none` case, caught by lines 533-568), validate on success; otherwise run
the manual field extraction on the raw candidate and validate its result
when at least one field matched; a candidate failing both is dropped. -/
def processCandidate (jsonStr : String) : Option JObj :=
  match jsonParse (preprocessJsonString jsonStr) with
  | some record => some (validateRecord record)
  | none =>
      let fieldsData := manualExtract jsonStr
      if fieldsData.isEmpty then none else some (validateRecord fieldsData)

/-- The `for (const jsonStr of jsonMatches)` loop of
`parseClaudeResponse` (src/bnu/batch_pdf_processor.js lines 522-572),
taking the regex-extracted candidate list as input: candidates are
processed in order and failed candidates contribute nothing; the
surrounding try/catch means no exception escapes the loop. -/
def parseCandidates : List String → List JObj
  | [] => []
  | c :: rest => (processCandidate c).toList ++ parseCandidates rest

/-- A candidate whose only field is 专业: the bnu pipeline emits it with
the 学校 schema key absent. -/
def candMissingSchool : String := "\x7b\"专业\":\"数学\"\x7d"

/-- What the pipeline emits for `candMissingSchool`. -/
def recMissingSchool : JObj :=
  [("专业", JVal.str "数学"), ("招生计划", JVal.str ""), ("最低分", JVal.str ""),
   ("最高分", JVal.str ""), ("最低分排名", JVal.str ""), ("普通类调档线", JVal.str ""),
   ("普通类全市位次", JVal.str "")]

theorem rget_rset_self (r : JObj) (k : String) (v : JVal) :
    rget (rset r k v) k = v := by
  induction r with
  | nil => simp [rset, rget]
  | cons hd t ih =>
      obtain ⟨k1, v1⟩ := hd
      by_cases hk : k1 = k
      · simp [rset, hk, rget]
      · simp [rset, hk, rget, ih]

theorem rget_rset_ne (r : JObj) (k1 k2 : String) (v : JVal) (h : k1 ≠ k2) :
    rget (rset r k1 v) k2 = rget r k2 := by
  induction r with
  | nil => simp [rset, rget, h]
  | cons hd t ih =>
      obtain ⟨ka, va⟩ := hd
      by_cases hka : ka = k1
      · subst hka
        simp [rset, rget, h]
      · by_cases hkb : ka = k2
        · simp [rset, hka, rget, hkb, Ne.symm h]
        · simp [rset, hka, rget, hkb, ih]

theorem rhas_rset_self (r : JObj) (k : String) (v : JVal) :
    rhas (rset r k v) k = true := by
  induction r with
  | nil => simp [rset, rhas]
  | cons hd t ih =>
      obtain ⟨ka, va⟩ := hd
      by_cases hka : ka = k
      · simp [rset, hka, rhas]
      · simp [rset, hka, rhas, ih]

theorem rhas_rset_preserve (r : JObj) (k k1 : String) (v : JVal)
    (h : rhas r k = true) : rhas (rset r k1 v) k = true := by
  induction r with
  | nil => simp [rhas] at h
  | cons hd t ih =>
      obtain ⟨ka, va⟩ := hd
      by_cases hkb : ka = k
      · subst hkb
        by_cases hka : ka = k1
        · subst hka
          simp [rset, rhas]
        · simp [rset, hka, rhas]
      · simp [rhas, hkb] at h
        by_cases hka : ka = k1
        · subst hka
          simp [rset, rhas, hkb, h]
        · simp [rset, hka, rhas, hkb, ih h]

theorem rset_self_of_rget (r : JObj) (k : String) (v : JVal)
    (hh : rhas r k = true) (hv : rget r k = v) : rset r k v = r := by
  induction r with
  | nil => simp [rhas] at hh
  | cons hd t ih =>
      obtain ⟨ka, va⟩ := hd
      by_cases hka : ka = k
      · subst hka
        simp [rget] at hv
        simp [rset, hv]
      · simp [rhas, hka] at hh
        simp [rget, hka] at hv
        simp [rset, hka, ih hh hv]

theorem rget_foldl_fixStep_not_mem (ks : List String) (r : JObj) (k : String)
    (h : k ∉ ks) : rget (ks.foldl fixStep r) k = rget r k := by
  induction ks generalizing r with
  | nil => simp
  | cons a t ih =>
      simp only [List.mem_cons, not_or] at h
      simp only [List.foldl_cons]
      rw [ih _ h.2, fixStep, rget_rset_ne _ _ _ _ (fun he => h.1 he.symm)]

theorem rget_foldl_fixStep_mem (ks : List String) (r : JObj) (k : String)
    (h : k ∈ ks) (hnd : ks.Nodup) :
    rget (ks.foldl fixStep r) k = fixNumericValue (rget r k) := by
  induction ks generalizing r with
  | nil => simp at h
  | cons a t ih =>
      simp only [List.nodup_cons] at hnd
      simp only [List.foldl_cons]
      rcases List.mem_cons.mp h with he | ht
      · subst he
        rw [rget_foldl_fixStep_not_mem _ _ _ hnd.1, fixStep, rget_rset_self]
      · have hak : a ≠ k := fun hc => hnd.1 (hc ▸ ht)
        rw [ih _ ht hnd.2, fixStep, rget_rset_ne _ _ _ _ hak]

theorem rhas_foldl_fixStep_preserve (ks : List String) (r : JObj) (k : String)
    (h : rhas r k = true) : rhas (ks.foldl fixStep r) k = true := by
  induction ks generalizing r with
  | nil => simpa using h
  | cons a t ih =>
      simp only [List.foldl_cons]
      exact ih _ (rhas_rset_preserve _ _ _ _ h)

theorem rhas_foldl_fixStep_mem (ks : List String) (r : JObj) (k : String)
    (h : k ∈ ks) : rhas (ks.foldl fixStep r) k = true := by
  induction ks generalizing r with
  | nil => simp at h
  | cons a t ih =>
      simp only [List.foldl_cons]
      rcases List.mem_cons.mp h with he | ht
      · subst he
        exact rhas_foldl_fixStep_preserve _ _ _ (rhas_rset_self _ _ _)
      · exact ih _ ht

theorem foldl_fixStep_fixed (ks : List String) (r : JObj)
    (h : ∀ k ∈ ks, rhas r k = true ∧ fixNumericValue (rget r k) = rget r k) :
    ks.foldl fixStep r = r := by
  induction ks with
  | nil => simp
  | cons a t ih =>
      have ha := h a (List.mem_cons_self a t)
      have hstep : fixStep r a = r := by
        rw [fixStep, ha.2, rset_self_of_rget _ _ _ ha.1 rfl]
      simp only [List.foldl_cons, hstep]
      exact ih (fun k hk => h k (List.mem_cons_of_mem a hk))

theorem fixNumericValue_is_str (v : JVal) : ∃ s, fixNumericValue v = JVal.str s := by
  cases v <;> simp [fixNumericValue, jsToString]

theorem fixNumericValue_str (s : String) :
    fixNumericValue (JVal.str s) = JVal.str s := rfl

theorem charDigitVal_digitChar (d : Nat) (h : d < 10) :
    charDigitVal (digitChar d) = some d := by
  interval_cases d <;> decide

theorem digitChar_ne_dash (d : Nat) (h : d < 10) : digitChar d ≠ '-' := by
  interval_cases d <;> decide

theorem natDigitsAux_digits (f n : Nat) :
    ∀ c ∈ natDigitsAux f n, ∃ d, d < 10 ∧ c = digitChar d := by
  induction f generalizing n with
  | zero =>
      cases n with
      | zero => simp [natDigitsAux]
      | succ m => simp [natDigitsAux]
  | succ f ih =>
      cases n with
      | zero => simp [natDigitsAux]
      | succ m =>
          intro c hc
          simp only [natDigitsAux, List.mem_cons] at hc
          rcases hc with hc | hc
          · exact ⟨(m + 1) % 10, Nat.mod_lt _ (by norm_num), hc⟩
          · exact ih _ c hc

theorem evalFrom_append (a : Nat) (l1 l2 : List Char) :
    evalFrom a (l1 ++ l2) =
      match evalFrom a l1 with
      | some b => evalFrom b l2
      | none => none := by
  induction l1 generalizing a with
  | nil => simp [evalFrom]
  | cons c cs ih =>
      simp only [List.cons_append, evalFrom]
      cases charDigitVal c with
      | none => simp
      | some d => simpa using ih (10 * a + d)

theorem evalFrom_natDigitsAux (f n a : Nat) (h : n ≤ f) :
    evalFrom a (natDigitsAux f n).reverse =
      some (a * 10 ^ (natDigitsAux f n).length + n) := by
  induction f generalizing n a with
  | zero =>
      have hn : n = 0 := Nat.le_zero.mp h
      subst hn
      simp [natDigitsAux, evalFrom]
  | succ f ih =>
      cases n with
      | zero => simp [natDigitsAux, evalFrom]
      | succ m =>
          have hq : (m + 1) / 10 ≤ f := by
            have h1 : (m + 1) / 10 < m + 1 := Nat.div_lt_self (Nat.succ_pos m) (by norm_num)
            omega
          simp only [natDigitsAux, List.reverse_cons]
          rw [evalFrom_append, ih ((m + 1) / 10) a hq]
          have hmod : (m + 1) % 10 < 10 := Nat.mod_lt _ (by norm_num)
          simp only [evalFrom, charDigitVal_digitChar _ hmod]
          have hdm : 10 * ((m + 1) / 10) + (m + 1) % 10 = m + 1 := Nat.div_add_mod _ _
          have hlen : (digitChar ((m + 1) % 10) :: natDigitsAux f ((m + 1) / 10)).length
              = (natDigitsAux f ((m + 1) / 10)).length + 1 := rfl
          rw [hlen]
          congr 1
          calc 10 * (a * 10 ^ (natDigitsAux f ((m + 1) / 10)).length + (m + 1) / 10)
                + (m + 1) % 10
              = a * (10 ^ (natDigitsAux f ((m + 1) / 10)).length * 10)
                + (10 * ((m + 1) / 10) + (m + 1) % 10) := by ring
            _ = a * 10 ^ ((natDigitsAux f ((m + 1) / 10)).length + 1) + (m + 1) := by
                rw [hdm, pow_succ]

theorem natDigitsAux_ne_nil (m : Nat) : natDigitsAux (m + 1) (m + 1) ≠ [] := by
  simp [natDigitsAux]

theorem parseNatChars_natToString (n : Nat) :
    parseNatChars (natToString n).data = some n := by
  cases n with
  | zero => decide
  | succ m =>
      have hne : natToString (m + 1) = String.mk (natDigitsAux (m + 1) (m + 1)).reverse := by
        simp [natToString]
      rw [hne]
      have hdata : (String.mk (natDigitsAux (m + 1) (m + 1)).reverse).data
          = (natDigitsAux (m + 1) (m + 1)).reverse := rfl
      rw [hdata]
      have hnil : (natDigitsAux (m + 1) (m + 1)).reverse ≠ [] := by
        intro hc
        exact natDigitsAux_ne_nil m (List.reverse_eq_nil_iff.mp hc)
      have heval := evalFrom_natDigitsAux (m + 1) (m + 1) 0 (le_refl _)
      rcases hl : (natDigitsAux (m + 1) (m + 1)).reverse with _ | ⟨c, cs⟩
      · exact absurd hl hnil
      · rw [hl] at heval
        simp only [parseNatChars, heval, Nat.zero_mul, Nat.zero_add]

theorem natToString_data_ne_nil (n : Nat) : (natToString n).data ≠ [] := by
  cases n with
  | zero => decide
  | succ m =>
      have hne : natToString (m + 1) = String.mk (natDigitsAux (m + 1) (m + 1)).reverse := by
        simp [natToString]
      rw [hne]
      intro hc
      exact natDigitsAux_ne_nil m (List.reverse_eq_nil_iff.mp hc)

theorem natToString_head_ne_dash (n : Nat) (c : Char) (cs : List Char)
    (h : (natToString n).data = c :: cs) : c ≠ '-' := by
  cases n with
  | zero =>
      have : (natToString 0).data = ['0'] := by decide
      rw [this] at h
      injection h with h1 _
      subst h1
      decide
  | succ m =>
      have hne : natToString (m + 1) = String.mk (natDigitsAux (m + 1) (m + 1)).reverse := by
        simp [natToString]
      rw [hne] at h
      have hdata : (String.mk (natDigitsAux (m + 1) (m + 1)).reverse).data
          = (natDigitsAux (m + 1) (m + 1)).reverse := rfl
      rw [hdata] at h
      have hc : c ∈ (natDigitsAux (m + 1) (m + 1)).reverse := by
        rw [h]; exact List.mem_cons_self _ _
      rw [List.mem_reverse] at hc
      obtain ⟨d, hd, he⟩ := natDigitsAux_digits (m + 1) (m + 1) c hc
      subst he
      exact digitChar_ne_dash d hd

theorem string_data_append (a b : String) : (a ++ b).data = a.data ++ b.data := by
  cases a
  cases b
  rfl

theorem strToNumber_intToString (n : Int) : strToNumber (intToString n) = some n := by
  by_cases hneg : n < 0
  · have hrw : intToString n = "-" ++ natToString n.natAbs := by
      simp [intToString, hneg]
    rw [hrw]
    have hdata : ("-" ++ natToString n.natAbs).data = '-' :: (natToString n.natAbs).data := by
      rw [string_data_append]
      rfl
    simp only [strToNumber, hdata, if_pos rfl, parseNatChars_natToString, if_true]
    congr 1
    omega
  · have hrw : intToString n = natToString n.toNat := by
      simp [intToString, hneg]
    rw [hrw]
    rcases hl : (natToString n.toNat).data with _ | ⟨c, cs⟩
    · exact absurd hl (natToString_data_ne_nil _)
    · have hc : c ≠ '-' := natToString_head_ne_dash _ _ _ hl
      have hp : parseNatChars (c :: cs) = some n.toNat := by
        rw [← hl]
        exact parseNatChars_natToString _
      simp only [strToNumber, hl, if_neg hc, hp]
      congr 1
      omega

theorem intToString_ne_empty (n : Int) : intToString n ≠ "" := by
  intro hc
  by_cases hneg : n < 0
  · have hrw : intToString n = "-" ++ natToString n.natAbs := by
      simp [intToString, hneg]
    rw [hrw] at hc
    have : ("-" ++ natToString n.natAbs).data = '-' :: (natToString n.natAbs).data := by
      rw [string_data_append]; rfl
    rw [hc] at this
    exact List.noConfusion this
  · have hrw : intToString n = natToString n.toNat := by
      simp [intToString, hneg]
    rw [hrw] at hc
    have := natToString_data_ne_nil n.toNat
    rw [hc] at this
    exact this rfl

theorem truthy_fixNumericValue (v : JVal) (hv : v ≠ JVal.num 0) :
    truthy (fixNumericValue v) = truthy v := by
  cases v with
  | str s => rfl
  | num n =>
      have hn : n ≠ 0 := fun hc => hv (by rw [hc])
      simp [fixNumericValue, jsToString, truthy, intToString_ne_empty n, hn]
  | null => rfl
  | undef => rfl

theorem jsNumber_fixNumericValue_of_truthy (v : JVal) (hv : truthy v = true) :
    jsNumber (fixNumericValue v) = jsNumber v := by
  cases v with
  | str s => rfl
  | num n => simp [fixNumericValue, jsToString, jsNumber, strToNumber_intToString]
  | null => simp [truthy] at hv
  | undef => simp [truthy] at hv

theorem jsGreater_some (x y : Option Int) (h : jsGreater x y = true) :
    ∃ a b, x = some a ∧ y = some b ∧ b < a := by
  cases x with
  | none => simp [jsGreater] at h
  | some a =>
      cases y with
      | none => simp [jsGreater] at h
      | some b => exact ⟨a, b, rfl, rfl, by simpa [jsGreater] using h⟩

/-- Claim C1: for every record whose 最低分 and 最高分 fields are non-empty
numeric strings, `validateRecord` emits the pair in order
(`Number(最低分) ≤ Number(最高分)`), and whenever the input pair is inverted
the output 最低分 is exactly the input 最高分 and vice versa (the values are
swapped, not dropped or cleared). -/
theorem validateRecord_score_order (r : JObj) (s1 s2 : String) (n1 n2 : Int)
    (h1 : rget r "最低分" = JVal.str s1) (h2 : rget r "最高分" = JVal.str s2)
    (hne1 : s1 ≠ "") (hne2 : s2 ≠ "")
    (hp1 : strToNumber s1 = some n1) (hp2 : strToNumber s2 = some n2) :
    ∃ t1 t2 m1 m2,
      rget (validateRecord r) "最低分" = JVal.str t1 ∧
      rget (validateRecord r) "最高分" = JVal.str t2 ∧
      strToNumber t1 = some m1 ∧ strToNumber t2 = some m2 ∧
      m1 ≤ m2 ∧ (n2 < n1 → t1 = s2 ∧ t2 = s1) := by
  have hmin : ("最低分" : String) ∈ numericKeys := by decide
  have hmax : ("最高分" : String) ∈ numericKeys := by decide
  have hnd : numericKeys.Nodup := by decide
  have hcond : swapCond r = jsGreater (some n1) (some n2) := by
    simp [swapCond, h1, h2, truthy, hne1, hne2, jsNumber, hp1, hp2]
  by_cases hgt : n2 < n1
  · have hc : swapCond r = true := by
      rw [hcond]; simp [jsGreater, hgt]
    have hsw : swapPhase r = rset (rset r "最低分" (JVal.str s2)) "最高分" (JVal.str s1) := by
      rw [swapPhase, if_pos hc, h1, h2]
    have hminv : rget (swapPhase r) "最低分" = JVal.str s2 := by
      rw [hsw, rget_rset_ne _ _ _ _ (by decide), rget_rset_self]
    have hmaxv : rget (swapPhase r) "最高分" = JVal.str s1 := by
      rw [hsw, rget_rset_self]
    refine ⟨s2, s1, n2, n1, ?_, ?_, hp2, hp1, le_of_lt hgt, fun _ => ⟨rfl, rfl⟩⟩
    · rw [validateRecord, fixPhase, rget_foldl_fixStep_mem _ _ _ hmin hnd, hminv,
        fixNumericValue_str]
    · rw [validateRecord, fixPhase, rget_foldl_fixStep_mem _ _ _ hmax hnd, hmaxv,
        fixNumericValue_str]
  · have hc : swapCond r = false := by
      rw [hcond]; simp [jsGreater, hgt]
    have hsw : swapPhase r = r := by
      rw [swapPhase, if_neg (by simp [hc])]
    refine ⟨s1, s2, n1, n2, ?_, ?_, hp1, hp2, by omega, fun hx => absurd hx hgt⟩
    · rw [validateRecord, fixPhase, hsw, rget_foldl_fixStep_mem _ _ _ hmin hnd, h1,
        fixNumericValue_str]
    · rw [validateRecord, fixPhase, hsw, rget_foldl_fixStep_mem _ _ _ hmax hnd, h2,
        fixNumericValue_str]

theorem validateRecord_score_order_witness :
    rget [(("最低分" : String), JVal.str "630"), ("最高分", JVal.str "620")] "最低分"
        = JVal.str "630" ∧
      strToNumber "630" = some 630 ∧
      (∃ t1 t2 m1 m2,
        rget (validateRecord [(("最低分" : String), JVal.str "630"), ("最高分", JVal.str "620")])
            "最低分" = JVal.str t1 ∧
        rget (validateRecord [(("最低分" : String), JVal.str "630"), ("最高分", JVal.str "620")])
            "最高分" = JVal.str t2 ∧
        strToNumber t1 = some m1 ∧ strToNumber t2 = some m2 ∧
        m1 ≤ m2 ∧ ((620 : Int) < 630 → t1 = "620" ∧ t2 = "630")) :=
  ⟨by decide, by decide,
    validateRecord_score_order _ "630" "620" 630 620 (by decide) (by decide)
      (by decide) (by decide) (by decide) (by decide)⟩

/-- Claim C10: `validateRecord` only touches the score pair and the six
listed numeric-string fields: every other key keeps exactly its input
value, and no key present in the input is removed. -/
theorem validateRecord_untouched_keys (r : JObj) (k : String) (hk : k ∉ numericKeys) :
    rget (validateRecord r) k = rget r k ∧
      (rhas r k = true → rhas (validateRecord r) k = true) := by
  have hmin : k ≠ "最低分" := fun hc => hk (by rw [hc]; decide)
  have hmax : k ≠ "最高分" := fun hc => hk (by rw [hc]; decide)
  constructor
  · rw [validateRecord, fixPhase, rget_foldl_fixStep_not_mem _ _ _ hk, swapPhase]
    by_cases hc : swapCond r
    · rw [if_pos hc, rget_rset_ne _ _ _ _ (Ne.symm hmax), rget_rset_ne _ _ _ _ (Ne.symm hmin)]
    · rw [if_neg hc]
  · intro hhas
    rw [validateRecord, fixPhase]
    apply rhas_foldl_fixStep_preserve
    rw [swapPhase]
    by_cases hc : swapCond r
    · rw [if_pos hc]
      exact rhas_rset_preserve _ _ _ _ (rhas_rset_preserve _ _ _ _ hhas)
    · rw [if_neg hc]
      exact hhas

theorem validateRecord_untouched_keys_witness :
    ("专业" : String) ∉ numericKeys ∧
      (rget (validateRecord [(("专业" : String), JVal.str "数学")]) "专业"
          = rget [(("专业" : String), JVal.str "数学")] "专业" ∧
        (rhas [(("专业" : String), JVal.str "数学")] "专业" = true →
          rhas (validateRecord [(("专业" : String), JVal.str "数学")]) "专业" = true)) :=
  ⟨by decide, validateRecord_untouched_keys _ _ (by decide)⟩

theorem swapCond_validateRecord_false (r : JObj)
    (hl : rget r "最低分" ≠ JVal.num 0) (hh : rget r "最高分" ≠ JVal.num 0) :
    swapCond (validateRecord r) = false := by
  have hnd : numericKeys.Nodup := by decide
  have hmin : ("最低分" : String) ∈ numericKeys := by decide
  have hmax : ("最高分" : String) ∈ numericKeys := by decide
  have hA : rget (validateRecord r) "最低分"
      = fixNumericValue (rget (swapPhase r) "最低分") := by
    rw [validateRecord, fixPhase, rget_foldl_fixStep_mem _ _ _ hmin hnd]
  have hB : rget (validateRecord r) "最高分"
      = fixNumericValue (rget (swapPhase r) "最高分") := by
    rw [validateRecord, fixPhase, rget_foldl_fixStep_mem _ _ _ hmax hnd]
  by_cases hc : swapCond r
  · have hsa : rget (swapPhase r) "最低分" = rget r "最高分" := by
      rw [swapPhase, if_pos hc, rget_rset_ne _ _ _ _ (by decide), rget_rset_self]
    have hsb : rget (swapPhase r) "最高分" = rget r "最低分" := by
      rw [swapPhase, if_pos hc, rget_rset_self]
    rw [swapCond, Bool.and_eq_true, Bool.and_eq_true] at hc
    obtain ⟨⟨ht1, ht2⟩, hg⟩ := hc
    obtain ⟨p, q, hp, hq, hlt⟩ := jsGreater_some _ _ hg
    rw [swapCond, hA, hB, hsa, hsb,
        jsNumber_fixNumericValue_of_truthy _ ht2, jsNumber_fixNumericValue_of_truthy _ ht1,
        hp, hq]
    have hfalse : jsGreater (some q) (some p) = false := by
      simp only [jsGreater, decide_eq_false_iff_not]
      omega
    rw [hfalse, Bool.and_false]
  · have hsa : rget (swapPhase r) "最低分" = rget r "最低分" := by
      rw [swapPhase, if_neg hc]
    have hsb : rget (swapPhase r) "最高分" = rget r "最高分" := by
      rw [swapPhase, if_neg hc]
    have hcf : swapCond r = false := Bool.eq_false_iff.mpr hc
    by_cases hta : truthy (rget r "最低分")
    · by_cases htb : truthy (rget r "最高分")
      · rw [swapCond, hA, hB, hsa, hsb,
            jsNumber_fixNumericValue_of_truthy _ hta, jsNumber_fixNumericValue_of_truthy _ htb,
            truthy_fixNumericValue _ hl, truthy_fixNumericValue _ hh]
        rw [swapCond] at hcf
        exact hcf
      · have htb2 : truthy (rget r "最高分") = false := Bool.eq_false_iff.mpr htb
        rw [swapCond, hB, hsb, truthy_fixNumericValue _ hh, htb2]
        simp
    · have hta2 : truthy (rget r "最低分") = false := Bool.eq_false_iff.mpr hta
      rw [swapCond, hA, hsa, truthy_fixNumericValue _ hl, hta2]
      simp

/-- Claim C9 (amended): `validateRecord` is idempotent on every record
whose 最低分 and 最高分 values are not the JavaScript number `0`.  (The
number `0` is falsy, so no swap happens on the first pass, but it is
stringified to the truthy `"0"`, which can enable a swap on the second
pass.) -/
theorem validateRecord_idem (r : JObj)
    (hl : rget r "最低分" ≠ JVal.num 0) (hh : rget r "最高分" ≠ JVal.num 0) :
    validateRecord (validateRecord r) = validateRecord r := by
  have hswap : swapPhase (validateRecord r) = validateRecord r := by
    rw [swapPhase, if_neg (by simp [swapCond_validateRecord_false r hl hh])]
  show fixPhase (swapPhase (validateRecord r)) = validateRecord r
  rw [hswap]
  apply foldl_fixStep_fixed
  intro k hk
  constructor
  · rw [validateRecord, fixPhase]
    exact rhas_foldl_fixStep_mem _ _ _ hk
  · have hval : rget (validateRecord r) k = fixNumericValue (rget (swapPhase r) k) := by
      rw [validateRecord, fixPhase, rget_foldl_fixStep_mem _ _ _ hk (by decide)]
    rw [hval]
    obtain ⟨s, hs⟩ := fixNumericValue_is_str (rget (swapPhase r) k)
    rw [hs, fixNumericValue_str]

/-- Claim C9 counterexample: the record with number fields 最低分 = 0 and
最高分 = -1 is not a fixed point of a second `validateRecord` pass: `0` is
falsy so the first pass does not swap, but after stringification `"0"` is
truthy and `Number("0") > Number("-1")`, so the second pass swaps. -/
theorem validateRecord_not_idempotent :
    validateRecord (validateRecord [(("最低分" : String), JVal.num 0),
        ("最高分", JVal.num (-1))]) ≠
      validateRecord [(("最低分" : String), JVal.num 0), ("最高分", JVal.num (-1))] := by
  decide

theorem validateRecord_idem_witness :
    rget [(("最低分" : String), JVal.str "620"), ("最高分", JVal.str "630")] "最低分"
        ≠ JVal.num 0 ∧
      validateRecord (validateRecord [(("最低分" : String), JVal.str "620"),
          ("最高分", JVal.str "630")]) =
        validateRecord [(("最低分" : String), JVal.str "620"), ("最高分", JVal.str "630")] :=
  ⟨by decide, validateRecord_idem _ (by decide) (by decide)⟩

theorem string_ext (a b : String) (h : a.data = b.data) : a = b := by
  cases a
  cases b
  exact congrArg String.mk h

theorem provinceFile_ne_output (p : String) : provinceFile p ≠ OUTPUT_FILE := by
  intro h
  have hd := congrArg String.data h
  rw [provinceFile, string_data_append, string_data_append] at hd
  have hlen := congrArg List.length hd
  have h1 : (".".data).length = 1 := by decide
  simp only [List.length_append, h1] at hlen
  omega

theorem provinceFile_inj (p q : String) (h : provinceFile p = provinceFile q) : p = q := by
  have hd := congrArg String.data h
  rw [provinceFile, provinceFile, string_data_append, string_data_append,
      string_data_append, string_data_append] at hd
  have hp : p.data = q.data := by
    rw [List.append_assoc, List.append_assoc] at hd
    have h2 := List.append_cancel_left hd
    exact List.append_cancel_left h2
  exact string_ext _ _ hp

theorem replayWrites_append (l1 l2 : List (String × List JObj)) (f : String) :
    replayWrites (l1 ++ l2) f =
      match replayWrites l2 f with
      | some c => some c
      | none => replayWrites l1 f := by
  induction l1 with
  | nil =>
      rw [List.nil_append]
      cases h : replayWrites l2 f <;> simp [h, replayWrites]
  | cons w ws ih =>
      simp only [List.cons_append, replayWrites, List.append_eq]
      rw [ih]
      cases h : replayWrites l2 f <;> simp [h]

theorem replay_filterMap_not_mem (recordsOf : String → String → List JObj)
    (y p : String) (provs : List String) (hnp : p ∉ provs) :
    replayWrites (provs.filterMap (fun q =>
        if recordsOf y q = [] then none else some (provinceFile q, recordsOf y q)))
      (provinceFile p) = none := by
  induction provs with
  | nil => rfl
  | cons q rest ih =>
      simp only [List.mem_cons, not_or] at hnp
      have hne : provinceFile q ≠ provinceFile p :=
        fun hc => hnp.1 (provinceFile_inj _ _ hc).symm
      by_cases hq : recordsOf y q = []
      · simp only [List.filterMap_cons, hq, if_pos rfl]
        exact ih hnp.2
      · simp only [List.filterMap_cons, if_neg hq]
        rw [replayWrites, ih hnp.2]
        simp [hne]

theorem replay_filterMap_mem (recordsOf : String → String → List JObj)
    (y p : String) (provs : List String) (hnd : provs.Nodup) (hp : p ∈ provs)
    (hne : recordsOf y p ≠ []) :
    replayWrites (provs.filterMap (fun q =>
        if recordsOf y q = [] then none else some (provinceFile q, recordsOf y q)))
      (provinceFile p) = some (recordsOf y p) := by
  induction provs with
  | nil => simp at hp
  | cons q rest ih =>
      simp only [List.nodup_cons] at hnd
      rcases List.mem_cons.mp hp with he | ht
      · subst he
        simp only [List.filterMap_cons, if_neg hne]
        rw [replayWrites, replay_filterMap_not_mem recordsOf y p rest hnd.1]
        simp
      · by_cases hq : recordsOf y q = []
        · simp only [List.filterMap_cons, hq, if_pos rfl]
          exact ih hnd.2 ht
        · simp only [List.filterMap_cons, if_neg hq]
          rw [replayWrites, ih hnd.2 ht]

theorem prodFacetLoop_append (branch : String → Except String (List JObj))
    (l1 l2 : List String) :
    prodFacetLoop branch (l1 ++ l2) = prodFacetLoop branch l1 ++ prodFacetLoop branch l2 := by
  induction l1 with
  | nil => simp [prodFacetLoop]
  | cons a t ih => simp [prodFacetLoop, ih, List.append_assoc]

/-- Claim C2 (amended): in the production traversal
(src/unnamed/part_002) every facet-level loop wraps each label's body in
`try`/`catch`, so a label whose processing fails contributes nothing, its
sibling labels are still attempted, and no exception escapes the loop
(the loop denotes a total function on label lists); in the test traversal
(src/unnamed/part_001) only the campus selection is individually guarded,
so a failure while processing a year/province/category label ends the
whole traversal. -/
theorem prodFacetLoop_skips_failed_label (branch : String → Except String (List JObj))
    (pre post : List String) (bad e : String) (hbad : branch bad = Except.error e) :
    prodFacetLoop branch (pre ++ bad :: post)
        = prodFacetLoop branch pre ++ prodFacetLoop branch post ∧
      ∀ labels, prodFacetLoop branch labels
        = labels.foldr (fun l acc =>
            (match branch l with
             | Except.ok rs => rs
             | Except.error _ => []) ++ acc) [] := by
  constructor
  · rw [prodFacetLoop_append]
    congr 1
    rw [prodFacetLoop, hbad]
    simp
  · intro labels
    induction labels with
    | nil => rfl
    | cons a t ih => rw [prodFacetLoop, List.foldr_cons, ih]

theorem prodFacetLoop_skips_failed_label_witness :
    branchCx "2023" = Except.error "selection failed" ∧
      prodFacetLoop branchCx (["2024"] ++ "2023" :: ["2024"])
        = prodFacetLoop branchCx ["2024"] ++ prodFacetLoop branchCx ["2024"] :=
  ⟨rfl, (prodFacetLoop_skips_failed_label branchCx ["2024"] ["2024"] "2023"
    "selection failed" rfl).1⟩

/-- Claim C2 counterexample: in the test traversal of
src/unnamed/part_001 a failing label is not caught at its own level: the
error escapes the whole facet loop (so the sibling label "2024" is never
attempted and contributes nothing) and is only absorbed by the outer
catch of `scrapeAdmissionScores`, which abandons the run's records. -/
theorem testFacetLoop_aborts_run :
    testFacetLoop branchCx ["2023", "2024"] = Except.error "selection failed" ∧
      testScrapeRun branchCx ["2023", "2024"] = [] ∧
      prodFacetLoop branchCx ["2023", "2024"] = [[("年份", JVal.str "2024")]] :=
  ⟨rfl, rfl, rfl⟩

/-- Claim C5 (amended): within a single year's pass over distinct
provinces the per-province checkpoint files are each written at most
once, so once a province's records are persisted nothing later in that
year's pass mutates them and the file still holds exactly that branch's
records at the end of the run; however the checkpoint filename contains
only the province (not the year), so when the same province completes
again under a later year its file is overwritten with the later year's
records. -/
theorem checkpoint_monotonic_single_year (recordsOf : String → String → List JObj)
    (provs : List String) (y p : String)
    (hnd : provs.Nodup) (hp : p ∈ provs) (hne : recordsOf y p ≠ []) :
    replayWrites (runWrites recordsOf (fun _ => provs) [y]) (provinceFile p)
      = some (recordsOf y p) := by
  rw [runWrites, replayWrites_append]
  have htail : replayWrites
      (if allRecords recordsOf (fun _ => provs) [y] = [] then []
       else [(OUTPUT_FILE, allRecords recordsOf (fun _ => provs) [y])])
      (provinceFile p) = none := by
    split
    · rfl
    · have hno : OUTPUT_FILE ≠ provinceFile p := fun hc => provinceFile_ne_output p hc.symm
      simp [replayWrites, hno]
  rw [htail]
  have hbw : branchWrites recordsOf (fun _ => provs) [y]
      = provs.filterMap (fun q =>
          if recordsOf y q = [] then none else some (provinceFile q, recordsOf y q)) := by
    simp [branchWrites]
  rw [hbw]
  exact replay_filterMap_mem recordsOf y p provs hnd hp hne

theorem checkpoint_monotonic_single_year_witness :
    (["北京", "上海"] : List String).Nodup ∧
      replayWrites (runWrites recordsOfCx (fun _ => ["北京", "上海"]) ["2024"])
        (provinceFile "北京") = some (recordsOfCx "2024" "北京") :=
  ⟨by decide,
    checkpoint_monotonic_single_year recordsOfCx ["北京", "上海"] "2024" "北京"
      (by decide) (by decide) (by decide)⟩

/-- Claim C5 counterexample: with two years and one province, the first
write of the run checkpoints the completed 2024/北京 branch to its
province-named file, but the 2023 pass over the same province later
overwrites that file, so after the run the persisted branch content of
checkpoint 1 is gone (a crash after the second write has lost it). -/
theorem checkpoint_overwritten_across_years :
    (runWrites recordsOfCx (fun _ => ["北京"]) ["2024", "2023"]).head?
        = some (provinceFile "北京", [[("年份", JVal.str "2024")]]) ∧
      replayWrites (runWrites recordsOfCx (fun _ => ["北京"]) ["2024", "2023"])
        (provinceFile "北京") = some [[("年份", JVal.str "2023")]] ∧
      ([[(("年份" : String), JVal.str "2023")]] : List JObj)
        ≠ [[("年份", JVal.str "2024")]] := by
  refine ⟨?_, ?_, by decide⟩ <;> rfl

theorem unnamedMajor_const (firstCell : String) (h : firstCell ≠ "") (r : Nat) :
    unnamedMajor firstCell r = "未命名专业-" ++ firstCell := by
  simp [unnamedMajor, jsOrS, h]

/-- Claim C3 (amended): the xidian row normalizer is deterministic on
every row whose first cell is non-empty — its only hidden input is the
`Math.random()` draw used to name an unnamed major, and that draw is
consulted only when both the resolved 专业 and the first cell are empty.
The bnu-side normalizer (`validateRecord`) takes no hidden input at all. -/
theorem xidian_row_deterministic (school province year : String) (r1 r2 : Nat)
    (cells : List String) (h : cells.getD 0 "" ≠ "") :
    xidianExtractRow school province year r1 cells
      = xidianExtractRow school province year r2 cells := by
  rw [xidianExtractRow, xidianExtractRow]
  simp only [unnamedMajor_const _ h]

theorem xidian_row_deterministic_witness :
    (["物理学", "620", "630"] : List String).getD 0 "" ≠ "" ∧
      xidianExtractRow "西安电子科技大学" "北京" "2024" 0 ["物理学", "620", "630"]
        = xidianExtractRow "西安电子科技大学" "北京" "2024" 999 ["物理学", "620", "630"] :=
  ⟨by decide, xidian_row_deterministic "西安电子科技大学" "北京" "2024" 0 999 _ (by decide)⟩

/-- Claim C3 counterexample: on a 7-cell row of empty cells the xidian
row normalizer consults `Math.random()` for the placeholder major name,
so two runs on the same (layout, headers, cells, path) input can differ:
with draw 0 the major is "未命名专业-数据0", with draw 1 it is
"未命名专业-数据1". -/
theorem xidian_row_not_deterministic :
    xidianExtractRow "西安电子科技大学" "北京" "2024" 0 ["", "", "", "", "", "", ""]
      ≠ xidianExtractRow "西安电子科技大学" "北京" "2024" 1 ["", "", "", "", "", "", ""] := by
  decide

/-- Claim C4 counterexample: an explicit specialty-group value read from
the page (e.g. the active-filter label 综合改革) is not used verbatim:
lines 440-443 of src/unnamed/part_001 apply the derivation rewrites to it
as well, so with category 理工 the emitted group is 物理组, not the
explicit 综合改革. -/
theorem specialtyGroup_explicit_value_rewritten :
    finalSpecialtyGroup "综合改革" "理工" = "物理组" ∧
      finalSpecialtyGroup "综合改革" "理工" ≠ "综合改革" := by
  decide

/-- Claim C4 (amended): when no explicit specialty-group value is
available (empty page-read value, no selected group, empty table cell)
the emitted group is derived from the category by exactly
综合改革→物理组, 理科→理工, 文科→文史, otherwise the category itself; a
non-empty table cell is used verbatim by the row mapper; but an explicit
non-empty page-read value is also passed through the same three rewrite
rules rather than being exempt from them. -/
theorem specialtyGroup_derivation (school campus year admissionType province : String)
    (c v sg psg m lo hi rk : String)
    (hc1 : c ≠ "综合改革") (hc2 : c ≠ "理科") (hc3 : c ≠ "文科")
    (hv : v ≠ "") (hpsg : psg ≠ "") :
    finalSpecialtyGroup "" "综合改革" = "物理组" ∧
    finalSpecialtyGroup "" "理科" = "理工" ∧
    finalSpecialtyGroup "" "文科" = "文史" ∧
    finalSpecialtyGroup "" c = c ∧
    finalSpecialtyGroup psg c = deriveSpecialtyGroup psg ∧
    (∃ rec, bjtuMajorRow school campus year admissionType province c sg psg
        byMajorHeaders [m, lo, hi, rk, v] = some rec ∧
      rget rec "专业组/科目类/单设志愿" = JVal.str v) := by
  refine ⟨by decide, by decide, by decide, ?_, ?_, ?_⟩
  · have h4 : jsOrS "" (jsOrS c "") = c := by
      by_cases hc : c = "" <;> simp [jsOrS, hc]
    rw [finalSpecialtyGroup, h4, deriveSpecialtyGroup]
    simp [hc1, hc2, hc3]
  · have h5 : jsOrS psg (jsOrS c "") = psg := by simp [jsOrS, hpsg]
    rw [finalSpecialtyGroup, h5]
  · refine ⟨bjtuApplyHeaders [m, lo, hi, rk, v] sg psg 0 byMajorHeaders
      (bjtuBase school campus year admissionType province c sg psg), rfl, ?_⟩
    have hrec : bjtuApplyHeaders [m, lo, hi, rk, v] sg psg 0 byMajorHeaders
        (bjtuBase school campus year admissionType province c sg psg)
        = rset (rset (rset (rset (rset
            (bjtuBase school campus year admissionType province c sg psg)
            "专业" (JVal.str m)) "最低分" (JVal.str lo)) "最高分" (JVal.str hi))
            "最低分排名" (JVal.str rk))
            "专业组/科目类/单设志愿" (JVal.str (jsOrS v (jsOrS sg (jsOrS psg "")))) := rfl
    rw [hrec, rget_rset_self]
    simp [jsOrS, hv]

theorem specialtyGroup_derivation_witness :
    ("普通" : String) ≠ "综合改革" ∧
      (finalSpecialtyGroup "" "综合改革" = "物理组" ∧
       finalSpecialtyGroup "" "理科" = "理工" ∧
       finalSpecialtyGroup "" "文科" = "文史" ∧
       finalSpecialtyGroup "" "普通" = "普通" ∧
       finalSpecialtyGroup "理科" "普通" = deriveSpecialtyGroup "理科" ∧
       (∃ rec, bjtuMajorRow "北京交通大学" "" "2024" "普通批" "北京" "普通" "" "理科"
           byMajorHeaders ["计算机科学", "620", "630", "150", "物理组"] = some rec ∧
         rget rec "专业组/科目类/单设志愿" = JVal.str "物理组")) :=
  ⟨by decide,
    specialtyGroup_derivation "北京交通大学" "" "2024" "普通批" "北京" "普通" "物理组" ""
      "理科" "计算机科学" "620" "630" "150" (by decide) (by decide) (by decide)
      (by decide) (by decide)⟩

/-- Claim C6: a row with fewer cells than the layout's minimum column
count (3 for the general-admission layouts — the buaa positional table
and the bjtu general table — and 4 for the bjtu by-major table) yields no
record and raises no error, and splicing such a row into a table leaves
the records of all other rows unchanged. -/
theorem short_rows_skipped
    (school campus year admissionType province category specialtyGroup pageSG : String)
    (headers : List String) (pre post : List (List String)) (rowG rowM : List String)
    (hG : rowG.length < 3) (hM : rowM.length < 4) :
    buaaExtractRow school province year category admissionType rowG = none ∧
    bjtuGeneralRow school campus year admissionType province category specialtyGroup pageSG
      headers rowG = none ∧
    bjtuMajorRow school campus year admissionType province category specialtyGroup pageSG
      headers rowM = none ∧
    buaaExtractTable school province year category admissionType (pre ++ rowG :: post)
      = buaaExtractTable school province year category admissionType pre
        ++ buaaExtractTable school province year category admissionType post ∧
    bjtuGeneralTable school campus year admissionType province category specialtyGroup pageSG
        headers (pre ++ rowG :: post)
      = bjtuGeneralTable school campus year admissionType province category specialtyGroup
          pageSG headers pre
        ++ bjtuGeneralTable school campus year admissionType province category specialtyGroup
          pageSG headers post ∧
    bjtuMajorTable school campus year admissionType province category specialtyGroup pageSG
        headers (pre ++ rowM :: post)
      = bjtuMajorTable school campus year admissionType province category specialtyGroup
          pageSG headers pre
        ++ bjtuMajorTable school campus year admissionType province category specialtyGroup
          pageSG headers post := by
  have h1 : buaaExtractRow school province year category admissionType rowG = none := by
    rw [buaaExtractRow, if_pos hG]
  have h2 : bjtuGeneralRow school campus year admissionType province category specialtyGroup
      pageSG headers rowG = none := by
    rw [bjtuGeneralRow, if_pos hG]
  have h3 : bjtuMajorRow school campus year admissionType province category specialtyGroup
      pageSG headers rowM = none := by
    rw [bjtuMajorRow, if_pos hM]
  refine ⟨h1, h2, h3, ?_, ?_, ?_⟩
  · simp [buaaExtractTable, List.filterMap_append, List.filterMap_cons, h1]
  · simp [bjtuGeneralTable, List.filterMap_append, List.filterMap_cons, h2]
  · simp [bjtuMajorTable, List.filterMap_append, List.filterMap_cons, h3]

theorem short_rows_skipped_witness :
    (["620", "630"] : List String).length < 3 ∧
      buaaExtractTable "北京航空航天大学" "北京" "2024" "综合" "普通"
          ([["2024", "北京", "综合", "普通", "620", "650", "520"]] ++
            ["620", "630"] :: [["2023", "北京", "综合", "普通", "615", "640", "510"]])
        = buaaExtractTable "北京航空航天大学" "北京" "2024" "综合" "普通"
            [["2024", "北京", "综合", "普通", "620", "650", "520"]]
          ++ buaaExtractTable "北京航空航天大学" "北京" "2024" "综合" "普通"
            [["2023", "北京", "综合", "普通", "615", "640", "510"]] :=
  ⟨by decide,
    (short_rows_skipped "北京航空航天大学" "" "2024" "普通" "北京" "综合" "" "" byMajorHeaders
      [["2024", "北京", "综合", "普通", "620", "650", "520"]]
      [["2023", "北京", "综合", "普通", "615", "640", "510"]]
      ["620", "630"] ["620", "630"] (by decide) (by decide)).2.2.2.1⟩

theorem parseCandidates_append (l1 l2 : List String) :
    parseCandidates (l1 ++ l2) = parseCandidates l1 ++ parseCandidates l2 := by
  induction l1 with
  | nil => simp [parseCandidates]
  | cons a t ih => simp [parseCandidates, ih]

/-- Claim C7: every JSON candidate is repaired by `preprocessJsonString`
before the structural parse; a candidate that still fails the structural
parse and whose manual field extraction finds nothing is dropped while
its sibling candidates are unaffected; and every candidate whose repaired
form parses contributes its validated record to the batch output — the
loop is total (no exception escapes `parseClaudeResponse`). -/
theorem parseClaudeResponse_drop_and_keep (pre post : List String) (bad : String)
    (cands : List String) (c : String) (rec : JObj)
    (hbad1 : jsonParse (preprocessJsonString bad) = none)
    (hbad2 : manualExtract bad = [])
    (hc : c ∈ cands) (hrec : jsonParse (preprocessJsonString c) = some rec) :
    parseCandidates (pre ++ bad :: post) = parseCandidates pre ++ parseCandidates post ∧
    validateRecord rec ∈ parseCandidates cands := by
  constructor
  · have hnone : processCandidate bad = none := by
      simp [processCandidate, hbad1, hbad2]
    rw [parseCandidates_append]
    have hmid : parseCandidates (bad :: post) = parseCandidates post := by
      rw [parseCandidates, hnone]
      simp
    rw [hmid]
  · induction cands with
    | nil => simp at hc
    | cons a t ih =>
        rw [parseCandidates]
        rcases List.mem_cons.mp hc with he | ht
        · subst he
          have hsome : processCandidate c = some (validateRecord rec) := by
            rw [processCandidate, hrec]
          rw [hsome]
          exact List.mem_append_left _ (List.mem_cons_self _ _)
        · exact List.mem_append_right _ (ih ht)

theorem parseClaudeResponse_drop_and_keep_witness :
    jsonParse (preprocessJsonString "no json here") = none ∧
    manualExtract "no json here" = [] ∧
    jsonParse (preprocessJsonString "\x7b\"学校\":\"北京师范大学\"\x7d")
        = some [("学校", JVal.str "北京师范大学")] ∧
    (parseCandidates (["\x7b\"学校\":\"北京师范大学\"\x7d"] ++ "no json here" :: [])
        = parseCandidates ["\x7b\"学校\":\"北京师范大学\"\x7d"] ++ parseCandidates [] ∧
      validateRecord [("学校", JVal.str "北京师范大学")]
        ∈ parseCandidates ["\x7b\"学校\":\"北京师范大学\"\x7d", "no json here"]) :=
  ⟨by decide, by decide, by decide,
    parseClaudeResponse_drop_and_keep ["\x7b\"学校\":\"北京师范大学\"\x7d"] [] "no json here"
      ["\x7b\"学校\":\"北京师范大学\"\x7d", "no json here"]
      "\x7b\"学校\":\"北京师范大学\"\x7d" [("学校", JVal.str "北京师范大学")]
      (by decide) (by decide) (by decide) (by decide)⟩

/-- Claim C8 counterexample: the bnu pipeline emits, for the candidate
`{"专业":"数学"}`, a record with no 学校 key at all (and likewise no
校区/年份/科类 keys) — `validateRecord` only guarantees the six numeric
fields, so schema keys can be omitted from emitted records, contradicting
"no schema key is ever omitted". -/
theorem emitted_record_missing_schema_key :
    parseCandidates [candMissingSchool] = [recMissingSchool] ∧
      rhas recMissingSchool "学校" = false := by
  refine ⟨by decide, by decide⟩

/-- Claim C8 (amended): every bnu-validated record carries the six listed
numeric fields as string values (absent or null data becomes the empty
string, the keys are always present), and every buaa-emitted record
contains exactly its eight fixed keys with string values; but the
remaining NormalizedRecord keys (学校, 校区, 年份, ...) are not guaranteed
present on the bnu path. -/
theorem schema_fields_strings (r : JObj) (k : String) (hk : k ∈ numericKeys)
    (school province year category admissionType : String) (cells : List String)
    (rec : JObj)
    (hrec : buaaExtractRow school province year category admissionType cells = some rec) :
    (∃ s, rget (validateRecord r) k = JVal.str s) ∧
    rhas (validateRecord r) k = true ∧
    rec.map Prod.fst = ["学校", "年份", "省市", "科类", "类型", "最低分", "平均分", "控制线"] ∧
    (∀ kv ∈ rec, ∃ s, kv.2 = JVal.str s) := by
  have hnd : numericKeys.Nodup := by decide
  have hrec2 : rec = [("学校", JVal.str school),
      ("年份", JVal.str (jsOrS (cells.getD 0 "") year)),
      ("省市", JVal.str (jsOrS (cells.getD 1 "") province)),
      ("科类", JVal.str (jsOrS (cells.getD 2 "") category)),
      ("类型", JVal.str (jsOrS (cells.getD 3 "") admissionType.trim)),
      ("最低分", JVal.str (cells.getD 4 "")),
      ("平均分", JVal.str (cells.getD 5 "")),
      ("控制线", JVal.str (cells.getD 6 ""))] := by
    rw [buaaExtractRow] at hrec
    by_cases hlen : cells.length < 3
    · rw [if_pos hlen] at hrec
      exact absurd hrec (by simp)
    · rw [if_neg hlen] at hrec
      injection hrec with h
      exact h.symm
  refine ⟨?_, ?_, ?_, ?_⟩
  · rw [validateRecord, fixPhase, rget_foldl_fixStep_mem _ _ _ hk hnd]
    exact fixNumericValue_is_str _
  · rw [validateRecord, fixPhase]
    exact rhas_foldl_fixStep_mem _ _ _ hk
  · rw [hrec2]
    rfl
  · intro kv hkv
    rw [hrec2] at hkv
    simp only [List.mem_cons, List.not_mem_nil, or_false] at hkv
    rcases hkv with h | h | h | h | h | h | h | h <;> exact ⟨_, by rw [h]⟩

theorem schema_fields_strings_witness :
    ("最低分" : String) ∈ numericKeys ∧
    buaaExtractRow "北京航空航天大学" "北京" "2024" "综合" "普通"
        ["2024", "北京", "综合", "统招", "620", "650", "520"]
      = some [("学校", JVal.str "北京航空航天大学"), ("年份", JVal.str "2024"),
          ("省市", JVal.str "北京"), ("科类", JVal.str "综合"), ("类型", JVal.str "统招"),
          ("最低分", JVal.str "620"), ("平均分", JVal.str "650"), ("控制线", JVal.str "520")] ∧
    ((∃ s, rget (validateRecord [(("专业" : String), JVal.str "数学")]) "最低分"
        = JVal.str s) ∧
      rhas (validateRecord [(("专业" : String), JVal.str "数学")]) "最低分" = true ∧
      List.map Prod.fst [(("学校" : String), JVal.str "北京航空航天大学"),
          ("年份", JVal.str "2024"), ("省市", JVal.str "北京"), ("科类", JVal.str "综合"),
          ("类型", JVal.str "统招"), ("最低分", JVal.str "620"), ("平均分", JVal.str "650"),
          ("控制线", JVal.str "520")]
        = ["学校", "年份", "省市", "科类", "类型", "最低分", "平均分", "控制线"] ∧
      (∀ kv ∈ [(("学校" : String), JVal.str "北京航空航天大学"), ("年份", JVal.str "2024"),
          ("省市", JVal.str "北京"), ("科类", JVal.str "综合"), ("类型", JVal.str "统招"),
          ("最低分", JVal.str "620"), ("平均分", JVal.str "650"), ("控制线", JVal.str "520")],
        ∃ s, kv.2 = JVal.str s)) :=
  ⟨by decide, by decide,
    schema_fields_strings [("专业", JVal.str "数学")] "最低分" (by decide)
      "北京航空航天大学" "北京" "2024" "综合" "普通"
      ["2024", "北京", "综合", "统招", "620", "650", "520"] _ (by decide)⟩
